import Mathlib

/-!
Verification development for the Kingfisher repository.

Part I embeds the RAG support code that is present under `src/`
(`apps/web/lib/rag/chunk.ts` and the `/api/ingest` route handler).

Part II models the orchestration pipeline (Planner, Fan-Out
Coordinator, Merger, Stream Emitter).  Its source
(`apps/api/orchestrator.py`, `apps/api/main.py`) is referenced by the
repository's DEVELOPER_GUIDE and CHANGES documents but is not present
under `src/`; those components are therefore modelled from the
specification, as flagged on each definition.

Part III embeds the request construction of the two front-end clients
(`src/unnamed/part_005` and `src/unnamed/part_006`), which are present
in source form.
-/

namespace KF

/-! ### Part I.a — chunking (src/apps/web/lib/rag/chunk.ts) -/

/-- A text chunk, as produced by `chunkText` (chunk.ts, lines 8-12). -/
structure Chunk where
  text : String
  index : Nat
deriving DecidableEq

/-- `MAX_CHUNK_TOKENS` (chunk.ts line 6, default 900). -/
def MAX_CHUNK_TOKENS : Nat := 900

/-- `OVERLAP_TOKENS` (chunk.ts line 7). -/
def OVERLAP_TOKENS : Nat := 100

/-- `CHAR_CHUNK_SIZE` (chunk.ts line 42). -/
def CHAR_CHUNK_SIZE : Nat := 3000

/-- `CHAR_OVERLAP` (chunk.ts line 43). -/
def CHAR_OVERLAP : Nat := 300

/-- Abstract model of a js-tiktoken encoding: `encode` turns a string
into a token sequence, `decode` turns a token slice back into text.
`chunkText` receives it as an `Option`: `none` models
`encodingForModel` (or any later step of the token path) throwing. -/
structure Encoding where
  encode : String → List Nat
  decode : List Nat → String

/-- The `for` loop of `chunkText` (chunk.ts lines 21-31): starting at
token offset `i`, slice `MAX_CHUNK_TOKENS` tokens, decode, trim, and
push a chunk with the running `index`, stepping by
`MAX_CHUNK_TOKENS - OVERLAP_TOKENS`. -/
def tokenLoop (e : Encoding) (tokens : List Nat) (i : Nat) (index : Nat) : List Chunk :=
  if h : i < tokens.length then
    { text := (e.decode ((tokens.drop i).take MAX_CHUNK_TOKENS)).trim, index := index } ::
      tokenLoop e tokens (i + (MAX_CHUNK_TOKENS - OVERLAP_TOKENS)) (index + 1)
  else []
termination_by tokens.length - i
decreasing_by simp only [MAX_CHUNK_TOKENS, OVERLAP_TOKENS]; omega

/-- The `for` loop of `fallbackChunk` (chunk.ts lines 47-53):
character-based slices of `CHAR_CHUNK_SIZE` stepping by
`CHAR_CHUNK_SIZE - CHAR_OVERLAP`. -/
def fallbackLoop (text : String) (i : Nat) (index : Nat) : List Chunk :=
  if h : i < text.length then
    { text := ((text.drop i).take CHAR_CHUNK_SIZE).trim, index := index } ::
      fallbackLoop text (i + (CHAR_CHUNK_SIZE - CHAR_OVERLAP)) (index + 1)
  else []
termination_by text.length - i
decreasing_by simp only [CHAR_CHUNK_SIZE, CHAR_OVERLAP]; omega

/-- `fallbackChunk` (chunk.ts lines 41-56): run the character loop;
if it produced nothing, return the single chunk
`{text: text.slice(0, 3000), index: 0}`. -/
def fallbackChunk (text : String) : List Chunk :=
  if (fallbackLoop text 0 0).length > 0 then fallbackLoop text 0 0
  else [{ text := text.take 3000, index := 0 }]

/-- `chunkText` (chunk.ts lines 14-39).  `enc = none` models the token
path throwing (caught by the `catch`, which logs `docId` and falls
back to `fallbackChunk`); `enc = some e` is the token path, with the
same empty-guard as the source. -/
def chunkText (enc : Option Encoding) (text : String) (_docId : String) : List Chunk :=
  match enc with
  | some e =>
    if (tokenLoop e (e.encode text) 0 0).length > 0 then tokenLoop e (e.encode text) 0 0
    else [{ text := text.take 3000, index := 0 }]
  | none => fallbackChunk text

/-- `cs` carries consecutive `index` fields starting at `idx`. -/
def indicesFrom (idx : Nat) : List Chunk → Prop
  | [] => True
  | c :: rest => c.index = idx ∧ indicesFrom (idx + 1) rest

/-! ### Part I.b — ingestion endpoint (src/unnamed/part_001, POST /api/ingest)

The handler parses multipart form data (parse failure is caught by the
outer `try` and yields 500), returns 400 when the file list is empty,
and otherwise loops over the files: it writes the uploaded bytes to
`LIBRARY_DIR/{docId}_{filename}`, then inside an inner `try` runs
extract → chunk → embed → addVectors → addDoc; on inner failure it
unlinks the saved file and records an error entry, on success a
success entry.  It finally responds 200 with one entry per file. -/

deriving instance DecidableEq for Except

/-- One uploaded file together with the outcome of its inner
processing pipeline (extract/chunk/embed/store/register): `Except.ok n`
means it succeeds producing `n` chunks, `Except.error e` means one of
those steps throws with message `e`. -/
structure IngestFile where
  name : String
  outcome : Except String Nat
deriving DecidableEq

/-- One element of the `results` array built by the handler.  A
success entry carries `docId` and `chunks` (part_001 lines 73-78); an
error entry carries only filename, status and the error message
(lines 82-86).  `docId` is modelled as the position of the file in the
upload (uuids are fresh per file; freshness is what matters). -/
structure Entry where
  docId : Option Nat
  filename : String
  chunks : Option Nat
  status : String
  error : Option String
deriving DecidableEq

/-- The saved path `{docId}_{filename}` of a file, modelled as the
pair (position, name) — `uuidv4()` makes real paths distinct per file. -/
def savedPath (idx : Nat) (name : String) : Nat × String := (idx, name)

/-- The per-file loop of the handler (part_001 lines 32-88).  `lib` is
the set of files currently present in the library directory; `idx` is
the position of the next file (standing in for its fresh uuid).
Each iteration saves the file, then on processing success keeps it and
records a success entry, and on failure unlinks it
(`fs.unlink(filePath).catch(() => {})`) and records an error entry. -/
def ingestLoop (lib : List (Nat × String)) (idx : Nat) :
    List IngestFile → List (Nat × String) × List Entry
  | [] => (lib, [])
  | f :: rest =>
    match f.outcome with
    | Except.ok n =>
      ((ingestLoop (lib ++ [savedPath idx f.name]) (idx + 1) rest).1,
       { docId := some idx, filename := f.name, chunks := some n,
         status := "success", error := none } ::
         (ingestLoop (lib ++ [savedPath idx f.name]) (idx + 1) rest).2)
    | Except.error e =>
      (((ingestLoop ((lib ++ [savedPath idx f.name]).erase (savedPath idx f.name))
          (idx + 1) rest).1),
       { docId := none, filename := f.name, chunks := none,
         status := "error", error := some e } ::
         (ingestLoop ((lib ++ [savedPath idx f.name]).erase (savedPath idx f.name))
           (idx + 1) rest).2)

/-- The handler's HTTP response, plus the final library-directory
contents (observable effect of save/unlink). -/
structure IngestResponse where
  status : Nat
  results : List Entry
  lib : List (Nat × String)
deriving DecidableEq

/-- `POST` of part_001.  `req = none` models `req.formData()` throwing
(outer catch, line 94: respond 500); an empty file list yields 400
(lines 22-24); otherwise the loop runs over every file and the
response is 200 with one entry per file (lines 90-93). -/
def ingestPOST (req : Option (List IngestFile)) : IngestResponse :=
  match req with
  | none => { status := 500, results := [], lib := [] }
  | some files =>
    if files.isEmpty then { status := 400, results := [], lib := [] }
    else
      { status := 200, results := (ingestLoop [] 0 files).2,
        lib := (ingestLoop [] 0 files).1 }

/-- The entry the loop records for the file at position `idx`. -/
def entryOf (idx : Nat) (f : IngestFile) : Entry :=
  match f.outcome with
  | Except.ok n =>
    { docId := some idx, filename := f.name, chunks := some n,
      status := "success", error := none }
  | Except.error e =>
    { docId := none, filename := f.name, chunks := none,
      status := "error", error := some e }

/-- The library paths that survive the loop started at position `idx`:
exactly the saved copies of successfully processed files. -/
def keptPaths (idx : Nat) : List IngestFile → List (Nat × String)
  | [] => []
  | f :: rest =>
    match f.outcome with
    | Except.ok _ => savedPath idx f.name :: keptPaths (idx + 1) rest
    | Except.error _ => keptPaths (idx + 1) rest

/-- The entries the loop records for the files starting at position
`idx`, in upload order. -/
def entriesFrom (idx : Nat) : List IngestFile → List Entry
  | [] => []
  | f :: rest => entryOf idx f :: entriesFrom (idx + 1) rest

/-! ### Part II — the orchestration pipeline

Modelled from the spec: the pipeline source
(`apps/api/orchestrator.py`, `apps/api/main.py`, `apps/api/tools/`) is
not under `src/`; only the repository's documents (DEVELOPER_GUIDE,
CHANGES, IMPLEMENTATION_SUMMARY) and the two front-end callers refer
to it.  The data model follows spec §3 (field names match the client
types declared in src/unnamed/part_005). -/

/-- Modelled from the spec: the closed tool enumeration (§3 ToolCall,
§9 "closed enumeration"; DEVELOPER_GUIDE lists search, weather,
marine). -/
inductive Tool where
  | search
  | weather
  | marine
deriving DecidableEq

/-- Modelled from the spec: Citation = {url, title, snippet?} (§3). -/
structure Citation where
  url : String
  title : String
  snippet : Option String
deriving DecidableEq

/-- Modelled from the spec: ImageRef, matching the client type in
part_005. -/
structure ImageRef where
  url : String
  alt : Option String
  credit : Option String
  provider : Option String
deriving DecidableEq

/-- Modelled from the spec: Step = {title, body, image?, citations}
(§3). -/
structure Step where
  title : String
  body : String
  image : Option ImageRef
  citations : List Citation
deriving DecidableEq

/-- Modelled from the spec: Card.kind ∈ {howto, concept, plan,
reference} (§3). -/
inductive CardKind where
  | howto
  | concept
  | plan
  | reference
deriving DecidableEq

/-- Modelled from the spec: Card = {kind, title, steps, images,
citations} (§3). -/
structure Card where
  kind : CardKind
  title : String
  steps : List Step
  images : List ImageRef
  citations : List Citation
deriving DecidableEq

/-- Modelled from the spec: ToolCall = {tool, params} (§3), params as
an association list (normalized). -/
structure ToolCall where
  tool : Tool
  params : List (String × String)
deriving DecidableEq

/-- Modelled from the spec: the numeric weather fields the appendix
step summarizes (§4.4: temperature, wind). -/
structure WeatherData where
  temperature : Int
  wind : Int
deriving DecidableEq

/-- Modelled from the spec: the numeric marine fields the appendix
step summarizes (§4.4: wave height, swell period). -/
structure MarineData where
  waveHeight : Int
  swellPeriod : Int
deriving DecidableEq

/-- Modelled from the spec: a ToolResult payload, by tool kind — a
search result carries citations (§4.4 rule 1), weather/marine carry
their numeric fields, and `emptyP` is the empty payload (unknown tool
or failure). -/
inductive ToolPayload where
  | searchP (cits : List Citation)
  | weatherP (w : WeatherData)
  | marineP (m : MarineData)
  | emptyP
deriving DecidableEq

/-- Modelled from the spec: ToolResult = {tool, ok, payload | error,
latency} (§3), always tagged with the producing tool and a success
flag. -/
structure ToolResult where
  tool : Tool
  ok : Bool
  payload : ToolPayload
  error : Option String
  latency : Nat
deriving DecidableEq

/-- Modelled from the spec: Plan = {text, needs_fresh_facts, cards,
tool_calls, image_queries} (§3); all array fields are plain lists, so
a Plan is structurally valid (never null) by construction.  The
merged Result shares this shape (§4.4: merge is additive annotation of
the Plan). -/
structure Plan where
  text : String
  needs_fresh_facts : Bool
  cards : List Card
  tool_calls : List ToolCall
  image_queries : List String
deriving DecidableEq

/-! #### The Merger (spec §4.4) -/

/-- All citations carried by successful search results among `rs`
(§4.4 rule 1: "Citations from a successful search result"). -/
def searchCits (rs : List ToolResult) : List Citation :=
  rs.foldr
    (fun r acc =>
      match r.tool, r.ok, r.payload with
      | Tool.search, true, ToolPayload.searchP cs => cs ++ acc
      | _, _, _ => acc) []

/-- The first successful weather payload among `rs`, if any. -/
def weatherData (rs : List ToolResult) : Option WeatherData :=
  rs.findSome?
    (fun r =>
      match r.tool, r.ok, r.payload with
      | Tool.weather, true, ToolPayload.weatherP w => some w
      | _, _, _ => none)

/-- The first successful marine payload among `rs`, if any. -/
def marineData (rs : List ToolResult) : Option MarineData :=
  rs.findSome?
    (fun r =>
      match r.tool, r.ok, r.payload with
      | Tool.marine, true, ToolPayload.marineP m => some m
      | _, _, _ => none)

/-- Whether a conditions appendix step is due: a successful weather or
marine result is present (§4.4 rule 2). -/
def condOk (rs : List ToolResult) : Bool :=
  (weatherData rs).isSome || (marineData rs).isSome

/-- Substring test on character lists: does `pat` occur in `s`? -/
def prefixOfL : List Char → List Char → Bool
  | [], _ => true
  | _ :: _, [] => false
  | a :: as, b :: bs => a == b && prefixOfL as bs

/-- Substring occurrence, sliding `prefixOfL` along `s`. -/
def containsSubL (pat : List Char) : List Char → Bool
  | [] => pat.isEmpty
  | c :: rest => prefixOfL pat (c :: rest) || containsSubL pat rest

/-- `pat` occurs as a contiguous substring of `s`. -/
def containsSub (s pat : String) : Bool := containsSubL pat.toList s.toList

/-- Modelled from the spec: the fixed keyword set associated with
external facts (§4.4 rule 1: e.g. "condition", "weather", "tide"). -/
def condKeywords : List String := ["condition", "weather", "tide"]

/-- Modelled from the spec: the step-title match of §4.4 rule 1 — a
keyword of `condKeywords` occurs in the title.  The spec (§9) leaves
the matching heuristic open; substring matching is used here. -/
def titleMatches (t : String) : Bool := condKeywords.any (fun k => containsSub t k)

/-- Title of the synthesized conditions appendix step (§4.4 rule 2). -/
def condTitle : String := "Conditions"

/-- Body of the synthesized appendix step: summarizes the numeric
fields of whichever of weather/marine succeeded (§4.4 rule 2); a
failed tool contributes nothing (omission is silent). -/
def condBody (rs : List ToolResult) : String :=
  (match weatherData rs with
   | some w => "Temperature " ++ toString w.temperature ++ " C, wind " ++
       toString w.wind ++ " km/h. "
   | none => "") ++
  (match marineData rs with
   | some m => "Waves " ++ toString m.waveHeight ++ " m, swell period " ++
       toString m.swellPeriod ++ " s."
   | none => "")

/-- The synthesized conditions appendix Step (§4.4 rule 2): a pure
function of the ToolResults, carrying no image and no citations. -/
def condStep (rs : List ToolResult) : Step :=
  { title := condTitle, body := condBody rs, image := none, citations := [] }

/-- Append to `cur` those of `cits` not already present (§4.4 rule 4:
re-applying the same results must not duplicate citations). -/
def attachCits (cits cur : List Citation) : List Citation :=
  cur ++ cits.filter (fun c => !decide (c ∈ cur))

/-- Per-step citation attachment (§4.4 rule 1, second half): a
plan-kind step whose title matches the keyword set gains the search
citations; other steps are untouched. -/
def enrichStep (cits : List Citation) (s : Step) : Step :=
  if titleMatches s.title then { s with citations := attachCits cits s.citations } else s

/-- The step list of a plan-kind card after merging: steps get keyword
citation attachment, then the conditions appendix step is appended
when due and not already present (§4.4 rules 2 and 4: dedupe of the
appendix step per card). -/
def planSteps (rs : List ToolResult) (steps : List Step) : List Step :=
  if condOk rs &&
      !((steps.map (enrichStep (searchCits rs))).any (fun s => s.title == condTitle)) then
    steps.map (enrichStep (searchCits rs)) ++ [condStep rs]
  else
    steps.map (enrichStep (searchCits rs))

/-- Merging one card (§4.4): concept/reference cards gain the search
citations at card level; plan cards gain step-level citations and the
conditions appendix step; howto cards are untouched. -/
def enrichCard (rs : List ToolResult) (c : Card) : Card :=
  match c.kind with
  | CardKind.concept => { c with citations := attachCits (searchCits rs) c.citations }
  | CardKind.reference => { c with citations := attachCits (searchCits rs) c.citations }
  | CardKind.plan => { c with steps := planSteps rs c.steps }
  | CardKind.howto => c

/-- Modelled from the spec: the Merger (§4.4) — a pure deterministic
function `(Plan, ToolResults) → Result`; the Result is the additively
annotated Plan.  (Per the repository's DEVELOPER_GUIDE, image
attachment is a separate earlier pass, `attach_images_to_cards`, not
part of `merge_tool_results_into_cards`.) -/
def merge (p : Plan) (rs : List ToolResult) : Plan :=
  { p with cards := p.cards.map (enrichCard rs) }

/-! #### The Planner (spec §4.1) -/

/-- Modelled from the spec: one generation-backend response.
`parsed = some pl` means the response passed schema validation and
yielded the Plan `pl`; `parsed = none` means it failed schema
validation; `rawText` is any usable raw text the response carried. -/
structure GenResponse where
  rawText : Option String
  parsed : Option Plan
deriving DecidableEq

/-- Modelled from the spec: the Planner (§4.1).  `r1` is the initial
schema-constrained response, `r2` the single repair attempt
re-prompting with the invalid output.  If the first response
validates, its Plan is returned; else if the repair validates, its
Plan; else the safe default Plan: text = any usable raw text from the
failed responses (else empty), cards = [], tool_calls = [],
needs_fresh_facts = false.  The function is total: it never raises
outward. -/
def planner (r1 r2 : GenResponse) : Plan :=
  match r1.parsed with
  | some pl => pl
  | none =>
    match r2.parsed with
    | some pl => pl
    | none =>
      { text := r1.rawText.getD (r2.rawText.getD ""),
        needs_fresh_facts := false, cards := [], tool_calls := [],
        image_queries := [] }

/-! #### The Fan-Out Coordinator (spec §4.3) -/

/-- Modelled from the spec: the per-call timeout, default 10s
(§4.3; DEVELOPER_GUIDE: "10s timeout per tool"), in milliseconds. -/
def toolTimeoutMs : Nat := 10000

/-- Modelled from the spec: the behaviour a tool call would exhibit if
left to run — how long it takes and the terminal ToolResult it would
produce (itself either a success or a provider error). -/
structure CallBehavior where
  duration : Nat
  outcome : ToolResult

/-- The result recorded for a timed-out call: `{ok:false,
error:"timeout"}` (§4.3). -/
def timeoutResult (t : Tool) : ToolResult :=
  { tool := t, ok := false, payload := ToolPayload.emptyP,
    error := some "timeout", latency := toolTimeoutMs }

/-- One call wrapped in its individual timeout (§4.3): if the call
outlasts `toolTimeoutMs` its slot gets the timeout result, otherwise
its own terminal outcome. -/
def runCall (c : ToolCall) (b : CallBehavior) : ToolResult :=
  if toolTimeoutMs < b.duration then timeoutResult c.tool else b.outcome

/-- Modelled from the spec: the Fan-Out Coordinator (§4.3),
denotationally — every launched call is driven to a terminal state
(success, provider error, or timeout) and the results are returned
keyed by call identity, one slot per requested call.  `env` gives each
call's behaviour (fixed per request, calls are independent). -/
def fanOut (calls : List ToolCall) (env : ToolCall → CallBehavior) :
    List (ToolCall × ToolResult) :=
  calls.map (fun c => (c, runCall c (env c)))

/-! #### Entry points and the Stream Emitter (spec §4.5, §6) -/

/-- Modelled from the spec: the StreamEvent types (§3):
status / cards / tool / result / error. -/
inductive Event where
  | status (stage : String)
  | cards (text : String) (cards : List Card)
  | tool (name : Tool) (ok : Bool)
  | result (payload : Plan)
  | error (msg : String)
deriving DecidableEq

/-- Terminal events: `result` and `error` (§4.5). -/
def isTerminalEv : Event → Bool
  | Event.result _ => true
  | Event.error _ => true
  | _ => false

/-- Modelled from the spec: the generation backend as seen by the
pipeline — for a message it either fails fatally (unreachable /
rejects credentials: `none`, §7 UpstreamAuthError/UpstreamUnavailable)
or yields the initial response and the repair response the Planner
would obtain. -/
structure Upstream where
  gen : String → Option (GenResponse × GenResponse)

/-- Request validation shared by both entry points (§6): an empty or
missing message is invalid. -/
def checkMessage : Option String → Option String
  | none => none
  | some "" => none
  | some m => some m

/-- Modelled from the spec: the shared pipeline (§2 data flow):
Planner → Fan-Out over the Plan's tool_calls → Merger.  `none` only
when the generation backend fails fatally. -/
def runPipeline (u : Upstream) (env : ToolCall → CallBehavior) (m : String) :
    Option Plan :=
  match u.gen m with
  | none => none
  | some (r1, r2) =>
    let p := planner r1 r2
    some (merge p ((fanOut p.tool_calls env).map Prod.snd))

/-- A synchronous HTTP response: status code and optional Result
body. -/
structure SyncResponse where
  status : Nat
  body : Option Plan
deriving DecidableEq

/-- Modelled from the spec: the synchronous entry point
(§6 POST /api/chat): empty/missing message → 400 immediately, before
any pipeline stage runs; a fatal upstream failure → 5xx; otherwise
200 with the Result JSON. -/
def syncEntry (u : Upstream) (env : ToolCall → CallBehavior)
    (msg : Option String) : SyncResponse :=
  match checkMessage msg with
  | none => { status := 400, body := none }
  | some m =>
    match runPipeline u env m with
    | none => { status := 502, body := none }
    | some res => { status := 200, body := some res }

/-- Modelled from the spec: the streaming entry point
(§6 GET /api/chat/stream) driven by the Stream Emitter state machine
(§4.5): invalid message → a single `error` event; else
`status{stage:"planning"}`, then on fatal upstream failure an `error`
event, else the `cards` event, one `tool` event per ToolResult, and
the single terminal `result` event; the stream closes after the
terminal event. -/
def streamEntry (u : Upstream) (env : ToolCall → CallBehavior)
    (msg : Option String) : List Event :=
  match checkMessage msg with
  | none => [Event.error "message is required"]
  | some m =>
    match u.gen m with
    | none => [Event.status "planning", Event.error "upstream unavailable"]
    | some (r1, r2) =>
      let p := planner r1 r2
      let prs := fanOut p.tool_calls env
      Event.status "planning" :: Event.cards p.text p.cards ::
        (prs.map (fun pr => Event.tool pr.1.tool pr.2.ok) ++
          [Event.result (merge p (prs.map Prod.snd))])

/-! ### Part III — front-end request construction (src/unnamed/part_005,
src/unnamed/part_006)

Both clients prefer the streaming surface and fall back to the
synchronous one.  What matters for claim C5 is the request parameter
each surface is given; the query string / JSON body are embedded as
key-value lists. -/

/-- part_005 `askStreaming` (line 48): the stream URL is
`/api/chat/stream?message=...`. -/
def askStreaming_query (q : String) : List (String × String) := [("message", q)]

/-- part_005 `askNonStreaming` (lines 118-122): the POST body is
`JSON.stringify({ message: q })`. -/
def askNonStreaming_body (q : String) : List (String × String) := [("message", q)]

/-- part_006 `send` (line 31): the stream URL is
`/api/chat/stream?q=...`. -/
def send_streamQuery (input : String) : List (String × String) := [("q", input)]

/-- part_006 `send` fallback (lines 52-57): the POST body is
`JSON.stringify({ query: input })`. -/
def send_fallbackBody (input : String) : List (String × String) := [("query", input)]

/-- How the server reads the request parameter: the `message` field of
the query string / body (spec §6: accepts `{message: string}`;
DEVELOPER_GUIDE: `GET /api/chat/stream?message=...`). -/
def lookupMessage (kvs : List (String × String)) : Option String :=
  kvs.lookup "message"

/-! ### Concrete sample values used by witnesses and counterexamples -/

/-- A successful weather ToolResult ({temp:22, wind:12}, §8). -/
def wOk : ToolResult :=
  { tool := Tool.weather, ok := true,
    payload := ToolPayload.weatherP { temperature := 22, wind := 12 },
    error := none, latency := 120 }

/-- A failed (timed-out) marine ToolResult. -/
def mFail : ToolResult := timeoutResult Tool.marine

/-- A plan-kind sample card with one ordinary step. -/
def samplePlanCard : Card :=
  { kind := CardKind.plan, title := "Evening session",
    steps := [{ title := "Rig up", body := "Tie the rig", image := none,
                citations := [] }],
    images := [], citations := [] }

/-- A sample Plan holding the one plan-kind card. -/
def samplePlan : Plan :=
  { text := "Plan text", needs_fresh_facts := true,
    cards := [samplePlanCard], tool_calls := [], image_queries := [] }

/-- A healthy upstream: the first response validates into a Plan whose
text echoes the message (no cards, no tool calls). -/
def genOk : Upstream :=
  { gen := fun m =>
      some ({ rawText := some m,
              parsed := some { text := m, needs_fresh_facts := false,
                               cards := [], tool_calls := [],
                               image_queries := [] } },
            { rawText := none, parsed := none }) }

/-- A tool environment in which every call completes instantly with a
trivial success. -/
def envQuick : ToolCall → CallBehavior :=
  fun c =>
    { duration := 0,
      outcome := { tool := c.tool, ok := true, payload := ToolPayload.emptyP,
                   error := none, latency := 0 } }

/-- A concrete search tool call. -/
def callS : ToolCall := { tool := Tool.search, params := [("q", "flathead")] }

/-- A concrete weather tool call. -/
def callW : ToolCall :=
  { tool := Tool.weather, params := [("lat", "-29.43"), ("lon", "153.36")] }

/-- A tool environment in which exactly the weather call outlasts its
timeout and every other call completes quickly and successfully. -/
def envOneTimeout : ToolCall → CallBehavior :=
  fun c =>
    if c = callW then
      { duration := 20000,
        outcome := { tool := c.tool, ok := true, payload := ToolPayload.emptyP,
                     error := none, latency := 20000 } }
    else
      { duration := 5,
        outcome := { tool := c.tool, ok := true, payload := ToolPayload.emptyP,
                     error := none, latency := 5 } }

/-- An upload whose processing succeeds with 3 chunks. -/
def fOk : IngestFile := { name := "a.pdf", outcome := Except.ok 3 }

/-- An upload whose processing fails during extraction. -/
def fBad : IngestFile := { name := "b.pdf", outcome := Except.error "extract failed" }

/-- Every citation appearing anywhere in a card: at card level or on
any of its steps. -/
def allCitations (c : Card) : List Citation :=
  c.citations ++ c.steps.flatMap (fun s => s.citations)

/-- Frame relation between a Step and its merged form: title, body and
image are unchanged and the original citations stand unchanged at the
front of the merged citation list (appends only). -/
def stepFrame (s s' : Step) : Prop :=
  s'.title = s.title ∧ s'.body = s.body ∧ s'.image = s.image ∧
  s'.citations.take s.citations.length = s.citations

/-- Frame relation between a Card and its merged form: kind, title and
images are unchanged, the original citations stand unchanged at the
front, and the original steps stand — each step preserved in the sense
of `stepFrame` — at the front of the merged step list. -/
def cardFrame (c c' : Card) : Prop :=
  c'.kind = c.kind ∧ c'.title = c.title ∧ c'.images = c.images ∧
  c'.citations.take c.citations.length = c.citations ∧
  List.Forall₂ stepFrame c.steps (c'.steps.take c.steps.length)

/-! ## Theorems -/

/-! ### Merger lemmas -/

theorem mem_attachCits {c : Citation} {cits cur : List Citation} :
    c ∈ attachCits cits cur ↔ c ∈ cur ∨ c ∈ cits := by
  constructor
  · intro h
    rcases List.mem_append.mp h with h1 | h2
    · exact Or.inl h1
    · exact Or.inr (List.mem_filter.mp h2).1
  · intro h
    rcases h with h1 | h2
    · exact List.mem_append.mpr (Or.inl h1)
    · by_cases hc : c ∈ cur
      · exact List.mem_append.mpr (Or.inl hc)
      · refine List.mem_append.mpr (Or.inr (List.mem_filter.mpr ⟨h2, ?_⟩))
        simp [hc]

theorem attachCits_idem (cits cur : List Citation) :
    attachCits cits (attachCits cits cur) = attachCits cits cur := by
  show attachCits cits cur ++
      cits.filter (fun c => !decide (c ∈ attachCits cits cur)) = attachCits cits cur
  have h2 : cits.filter (fun c => !decide (c ∈ attachCits cits cur)) = [] := by
    rw [List.filter_eq_nil_iff]
    intro a ha
    simp [mem_attachCits.mpr (Or.inr ha)]
  rw [h2, List.append_nil]

theorem enrichStep_title (cits : List Citation) (s : Step) :
    (enrichStep cits s).title = s.title := by
  unfold enrichStep
  split <;> rfl

theorem enrichStep_idem (cits : List Citation) (s : Step) :
    enrichStep cits (enrichStep cits s) = enrichStep cits s := by
  unfold enrichStep
  by_cases h : titleMatches s.title
  · simp [h, attachCits_idem]
  · simp [h]

theorem titleMatches_condTitle : titleMatches condTitle = false := by decide

theorem enrichStep_condStep (cits : List Citation) (rs : List ToolResult) :
    enrichStep cits (condStep rs) = condStep rs := by
  unfold enrichStep
  rw [show (condStep rs).title = condTitle from rfl, titleMatches_condTitle]
  simp

theorem map_enrichStep_idem (cits : List Citation) (steps : List Step) :
    (steps.map (enrichStep cits)).map (enrichStep cits) = steps.map (enrichStep cits) := by
  rw [List.map_map]
  exact List.map_congr_left (fun s _ => enrichStep_idem cits s)

theorem planSteps_idem (rs : List ToolResult) (steps : List Step) :
    planSteps rs (planSteps rs steps) = planSteps rs steps := by
  unfold planSteps
  by_cases hb : (condOk rs &&
      !((steps.map (enrichStep (searchCits rs))).any (fun s => s.title == condTitle))) = true
  · rw [if_pos hb]
    have hmap : ((steps.map (enrichStep (searchCits rs))) ++ [condStep rs]).map
        (enrichStep (searchCits rs)) = (steps.map (enrichStep (searchCits rs))) ++ [condStep rs] := by
      rw [List.map_append, map_enrichStep_idem]
      simp [enrichStep_condStep]
    have hany : (((steps.map (enrichStep (searchCits rs))) ++ [condStep rs]).any
        (fun s => s.title == condTitle)) = true := by
      rw [List.any_append]
      simp [condStep]
    rw [hmap, hany]
    simp
  · rw [if_neg hb, map_enrichStep_idem, if_neg]
    intro hcon
    exact hb hcon

theorem enrichCard_kind (rs : List ToolResult) (c : Card) :
    (enrichCard rs c).kind = c.kind := by
  unfold enrichCard
  split <;> rfl

theorem enrichCard_idem (rs : List ToolResult) (c : Card) :
    enrichCard rs (enrichCard rs c) = enrichCard rs c := by
  obtain ⟨k, t, st, im, ci⟩ := c
  cases k <;> simp [enrichCard, attachCits_idem, planSteps_idem]

/-- C1: the merge operation is idempotent — for every Plan `p` and
every collection of ToolResults `rs`,
`merge (merge p rs) rs = merge p rs`; in particular re-applying the
same ToolResults to an already-merged Result adds no duplicate
citations and no duplicate appendix steps. -/
theorem merge_idempotent (p : Plan) (rs : List ToolResult) :
    merge (merge p rs) rs = merge p rs := by
  simp only [merge, List.map_map]
  refine congrArg (fun cs => { p with cards := cs }) ?_
  exact List.map_congr_left (fun c _ => enrichCard_idem rs c)

/-! ### Frame lemmas (C8) -/

theorem forall₂_self_map {α β : Type} {R : α → β → Prop} {l : List α} {f : α → β}
    (h : ∀ a ∈ l, R a (f a)) : List.Forall₂ R l (l.map f) := by
  induction l with
  | nil => exact List.Forall₂.nil
  | cons x xs ih =>
    exact List.Forall₂.cons (h x (List.mem_cons_self x xs))
      (ih (fun a ha => h a (List.mem_cons_of_mem x ha)))

theorem take_append_self {α : Type} (l₁ l₂ : List α) :
    (l₁ ++ l₂).take l₁.length = l₁ := by
  simp

theorem take_attachCits (cits cur : List Citation) :
    (attachCits cits cur).take cur.length = cur := by
  unfold attachCits
  exact take_append_self cur _

theorem stepFrame_refl (s : Step) : stepFrame s s :=
  ⟨rfl, rfl, rfl, List.take_length s.citations⟩

theorem stepFrame_enrichStep (cits : List Citation) (s : Step) :
    stepFrame s (enrichStep cits s) := by
  unfold enrichStep
  by_cases h : titleMatches s.title
  · rw [if_pos h]
    exact ⟨rfl, rfl, rfl, take_attachCits cits s.citations⟩
  · rw [if_neg h]
    exact stepFrame_refl s

theorem take_planSteps (rs : List ToolResult) (steps : List Step) :
    (planSteps rs steps).take steps.length = steps.map (enrichStep (searchCits rs)) := by
  unfold planSteps
  split
  · rw [show steps.length = (steps.map (enrichStep (searchCits rs))).length by
      rw [List.length_map]]
    exact take_append_self _ _
  · rw [show steps.length = (steps.map (enrichStep (searchCits rs))).length by
      rw [List.length_map]]
    exact List.take_length _

theorem cardFrame_enrichCard (rs : List ToolResult) (c : Card) :
    cardFrame c (enrichCard rs c) := by
  obtain ⟨k, t, st, im, ci⟩ := c
  cases k
  case howto =>
    refine ⟨rfl, rfl, rfl, List.take_length ci, ?_⟩
    show List.Forall₂ stepFrame st (st.take st.length)
    rw [List.take_length]
    exact List.forall₂_same.mpr (fun s _ => stepFrame_refl s)
  case concept =>
    refine ⟨rfl, rfl, rfl, take_attachCits _ ci, ?_⟩
    show List.Forall₂ stepFrame st (st.take st.length)
    rw [List.take_length]
    exact List.forall₂_same.mpr (fun s _ => stepFrame_refl s)
  case reference =>
    refine ⟨rfl, rfl, rfl, take_attachCits _ ci, ?_⟩
    show List.Forall₂ stepFrame st (st.take st.length)
    rw [List.take_length]
    exact List.forall₂_same.mpr (fun s _ => stepFrame_refl s)
  case plan =>
    refine ⟨rfl, rfl, rfl, List.take_length ci, ?_⟩
    show List.Forall₂ stepFrame st ((planSteps rs st).take st.length)
    rw [take_planSteps]
    exact forall₂_self_map (fun s _ => stepFrame_enrichStep _ s)

/-! ### Appendix-step lemmas (C4) -/

theorem any_title_map (cits : List Citation) (steps : List Step) :
    ((steps.map (enrichStep cits)).any (fun s => s.title == condTitle)) =
      steps.any (fun s => s.title == condTitle) := by
  induction steps with
  | nil => rfl
  | cons x xs ih => simp [List.any_cons, ih, enrichStep_title]

theorem mem_enrichStep_citations {cit : Citation} (cits : List Citation) (s : Step) :
    cit ∈ (enrichStep cits s).citations → cit ∈ s.citations ∨ cit ∈ cits := by
  unfold enrichStep
  split
  · intro h
    exact mem_attachCits.mp h
  · intro h
    exact Or.inl h

theorem mem_map_enrich_bind {cit : Citation} (cits : List Citation) (steps : List Step) :
    cit ∈ (steps.map (enrichStep cits)).flatMap (fun s => s.citations) →
      cit ∈ steps.flatMap (fun s => s.citations) ∨ cit ∈ cits := by
  intro h
  rcases List.mem_flatMap.mp h with ⟨s', hs', hc⟩
  rcases List.mem_map.mp hs' with ⟨s, hs, rfl⟩
  rcases mem_enrichStep_citations cits s hc with h1 | h2
  · exact Or.inl (List.mem_flatMap.mpr ⟨s, hs, h1⟩)
  · exact Or.inr h2

theorem mem_planSteps_citations {cit : Citation} (rs : List ToolResult) (steps : List Step) :
    cit ∈ (planSteps rs steps).flatMap (fun s => s.citations) →
      cit ∈ steps.flatMap (fun s => s.citations) ∨ cit ∈ searchCits rs := by
  unfold planSteps
  split
  · intro h
    rcases List.mem_flatMap.mp h with ⟨s', hs', hc⟩
    rcases List.mem_append.mp hs' with h1 | h2
    · exact mem_map_enrich_bind (searchCits rs) steps (List.mem_flatMap.mpr ⟨s', h1, hc⟩)
    · rw [List.mem_singleton.mp h2] at hc
      exact absurd hc (List.not_mem_nil cit)
  · exact mem_map_enrich_bind (searchCits rs) steps

theorem mem_enrichCard_citations {cit : Citation} (rs : List ToolResult) (c : Card) :
    cit ∈ allCitations (enrichCard rs c) → cit ∈ allCitations c ∨ cit ∈ searchCits rs := by
  obtain ⟨k, t, st, im, ci⟩ := c
  cases k <;> intro h
  case howto => exact Or.inl h
  case concept =>
    rcases List.mem_append.mp h with h1 | h2
    · rcases mem_attachCits.mp h1 with hl | hr
      · exact Or.inl (List.mem_append.mpr (Or.inl hl))
      · exact Or.inr hr
    · exact Or.inl (List.mem_append.mpr (Or.inr h2))
  case reference =>
    rcases List.mem_append.mp h with h1 | h2
    · rcases mem_attachCits.mp h1 with hl | hr
      · exact Or.inl (List.mem_append.mpr (Or.inl hl))
      · exact Or.inr hr
    · exact Or.inl (List.mem_append.mpr (Or.inr h2))
  case plan =>
    rcases List.mem_append.mp h with h1 | h2
    · exact Or.inl (List.mem_append.mpr (Or.inl h1))
    · rcases mem_planSteps_citations rs st h2 with hl | hr
      · exact Or.inl (List.mem_append.mpr (Or.inr hl))
      · exact Or.inr hr

/-- C4 (amended): when the weather (or marine) tool result is
successful, merge appends exactly one synthesized conditions appendix
Step to each `plan`-kind card that does not already carry one, and
none to a `plan`-kind card that already does (the spec's dedupe rule);
when weather and marine both failed, no card's step list grows; and in
every case the only citations merge injects anywhere come from
successful search results — never from the weather or marine tool.
The merged cards are exactly the per-card enrichment of the Plan's
cards, in order. -/
theorem merge_appendix (p : Plan) (rs : List ToolResult) :
    (condOk rs = true →
      ∀ c ∈ p.cards, c.kind = CardKind.plan →
        ((c.steps.any (fun s => s.title == condTitle)) = false →
          (enrichCard rs c).steps =
            c.steps.map (enrichStep (searchCits rs)) ++ [condStep rs]) ∧
        ((c.steps.any (fun s => s.title == condTitle)) = true →
          (enrichCard rs c).steps = c.steps.map (enrichStep (searchCits rs)))) ∧
    (condOk rs = false →
      ∀ c ∈ p.cards, (enrichCard rs c).steps.length = c.steps.length) ∧
    (∀ c ∈ p.cards, ∀ cit ∈ allCitations (enrichCard rs c),
      cit ∈ allCitations c ∨ cit ∈ searchCits rs) ∧
    (merge p rs).cards = p.cards.map (enrichCard rs) := by
  refine ⟨?_, ?_, ?_, rfl⟩
  · intro hc c _ hk
    obtain ⟨k, t, st, im, ci⟩ := c
    subst hk
    constructor
    · intro hany
      show planSteps rs st = st.map (enrichStep (searchCits rs)) ++ [condStep rs]
      unfold planSteps
      rw [any_title_map, hany, hc]
      simp
    · intro hany
      show planSteps rs st = st.map (enrichStep (searchCits rs))
      unfold planSteps
      rw [any_title_map, hany]
      simp
  · intro hc c _
    obtain ⟨k, t, st, im, ci⟩ := c
    cases k
    case howto => rfl
    case concept => rfl
    case reference => rfl
    case plan =>
      show (planSteps rs st).length = st.length
      unfold planSteps
      rw [hc]
      simp
  · intro c _ cit hcit
    exact mem_enrichCard_citations rs c hcit

/-- C4 counterexample (to the claim as stated): the claim quantifies
over every Plan, but on an already-merged Plan — here
`merge samplePlan [wOk, mFail]`, whose single card is `plan`-kind,
with the weather result successful — a further merge adds no appendix
step at all (the card keeps 2 steps), where the claim demands exactly
one more per `plan`-kind card. -/
theorem merge_appendix_cex :
    (weatherData [wOk, mFail]).isSome = true ∧
    ((merge samplePlan [wOk, mFail]).cards.map (fun c => c.kind)) = [CardKind.plan] ∧
    ((merge samplePlan [wOk, mFail]).cards.map (fun c => c.steps.length)) = [2] ∧
    ((merge (merge samplePlan [wOk, mFail]) [wOk, mFail]).cards.map
      (fun c => c.steps.length)) = [2] ∧
    ((merge (merge samplePlan [wOk, mFail]) [wOk, mFail]).cards.map
        (fun c => c.steps.length)) ≠
      ((merge samplePlan [wOk, mFail]).cards.map (fun c => c.steps.length + 1)) := by
  refine ⟨rfl, rfl, rfl, rfl, by decide⟩

/-- Witness for C4 (amended): at the concrete fresh `samplePlan` with
a successful weather result and a failed marine result, the single
`plan`-kind card gains exactly the one synthesized conditions step. -/
theorem merge_appendix_witness :
    (enrichCard [wOk, mFail] samplePlanCard).steps =
      samplePlanCard.steps.map (enrichStep (searchCits [wOk, mFail])) ++
        [condStep [wOk, mFail]] :=
  ((merge_appendix samplePlan [wOk, mFail]).1 (by decide) samplePlanCard
    (by decide) rfl).1 (by decide)

/-- C8: merge never modifies any field of any existing Card or Step of
the Plan — kinds, titles, images and existing citations are unchanged
in the Result, existing steps are preserved positionally with their
titles, bodies, images and existing citations intact, and the only
changes are appends; the card list keeps its length and order, so Card
identity by index within `Plan.cards` is stable through merge.  (The
non-card Plan fields are also untouched.) -/
theorem merge_frame (p : Plan) (rs : List ToolResult) :
    (merge p rs).text = p.text ∧
    (merge p rs).needs_fresh_facts = p.needs_fresh_facts ∧
    (merge p rs).tool_calls = p.tool_calls ∧
    (merge p rs).image_queries = p.image_queries ∧
    (merge p rs).cards.length = p.cards.length ∧
    List.Forall₂ cardFrame p.cards (merge p rs).cards := by
  refine ⟨rfl, rfl, rfl, rfl, ?_, ?_⟩
  · show (p.cards.map (enrichCard rs)).length = p.cards.length
    exact List.length_map p.cards (enrichCard rs)
  · show List.Forall₂ cardFrame p.cards (p.cards.map (enrichCard rs))
    exact forall₂_self_map (fun c _ => cardFrame_enrichCard rs c)

/-! ### Planner (C2) -/

/-- C2: for every pair of generation-backend responses — including
every malformed one — the Planner returns a Plan (its array fields are
plain lists, present and never null by construction, and `planner` is
a total function, so no error escapes outward); and when both the
initial response and the single repair attempt fail schema validation,
the returned Plan has `cards = []`, `tool_calls = []`,
`needs_fresh_facts = false` and `text` equal to the usable raw text of
the failed responses, else the empty string. -/
theorem planner_safe_default (r1 r2 : GenResponse)
    (h1 : r1.parsed = none) (h2 : r2.parsed = none) :
    (planner r1 r2).cards = [] ∧ (planner r1 r2).tool_calls = [] ∧
    (planner r1 r2).needs_fresh_facts = false ∧
    (planner r1 r2).image_queries = [] ∧
    (planner r1 r2).text = r1.rawText.getD (r2.rawText.getD "") := by
  simp [planner, h1, h2]

/-- Witness for C2: a concrete doubly-failed generation exchange whose
usable raw text is `"raw"`. -/
theorem planner_safe_default_witness :
    (planner { rawText := some "raw", parsed := none }
        { rawText := none, parsed := none }).cards = [] ∧
    (planner { rawText := some "raw", parsed := none }
        { rawText := none, parsed := none }).tool_calls = [] ∧
    (planner { rawText := some "raw", parsed := none }
        { rawText := none, parsed := none }).needs_fresh_facts = false ∧
    (planner { rawText := some "raw", parsed := none }
        { rawText := none, parsed := none }).text = "raw" := by
  have h := planner_safe_default { rawText := some "raw", parsed := none }
    { rawText := none, parsed := none } rfl rfl
  exact ⟨h.1, h.2.1, h.2.2.1, h.2.2.2.2⟩

/-! ### Fan-Out Coordinator (C3) -/

/-- C3: for every set of concurrently launched (deduplicated) tool
calls, if exactly one call `c0` outlasts its individual timeout then
`c0`'s slot holds the `{ok := false, error := some "timeout"}` result
and every other call's slot holds that call's own terminal outcome,
unaffected; every launched call is driven to a terminal state before
the coordinator returns, and a result slot exists for every requested
call — the slots are keyed by call identity and cover the request list
exactly. -/
theorem fanout_isolation (calls : List ToolCall) (env : ToolCall → CallBehavior)
    (c0 : ToolCall) (_hnd : calls.Nodup) (hmem : c0 ∈ calls)
    (hto : toolTimeoutMs < (env c0).duration)
    (hrest : ∀ c ∈ calls, c ≠ c0 → (env c).duration ≤ toolTimeoutMs) :
    (fanOut calls env).length = calls.length ∧
    (c0, timeoutResult c0.tool) ∈ fanOut calls env ∧
    (timeoutResult c0.tool).ok = false ∧
    (timeoutResult c0.tool).error = some "timeout" ∧
    (∀ c ∈ calls, c ≠ c0 → (c, (env c).outcome) ∈ fanOut calls env) ∧
    (fanOut calls env).map Prod.fst = calls := by
  refine ⟨List.length_map _ _, ?_, rfl, rfl, ?_, ?_⟩
  · exact List.mem_map.mpr ⟨c0, hmem, by simp [runCall, hto]⟩
  · intro c hc hne
    have hle : ¬ toolTimeoutMs < (env c).duration := not_lt.mpr (hrest c hc hne)
    exact List.mem_map.mpr ⟨c, hc, by simp [runCall, hle]⟩
  · simp [fanOut, List.map_map, Function.comp_def]

/-- Witness for C3: of the two concrete calls `callS`, `callW` under
`envOneTimeout`, only the weather call times out; both slots are
present. -/
theorem fanout_isolation_witness :
    (fanOut [callS, callW] envOneTimeout).length = 2 ∧
    (callW, timeoutResult Tool.weather) ∈ fanOut [callS, callW] envOneTimeout ∧
    (callS, (envOneTimeout callS).outcome) ∈ fanOut [callS, callW] envOneTimeout := by
  have h := fanout_isolation [callS, callW] envOneTimeout callW
    (by decide) (by decide) (by decide) (by decide)
  exact ⟨h.1, h.2.1, h.2.2.2.2.1 callS (by decide) (by decide)⟩

/-! ### Entry-point validation (C6) -/

/-- C6: for every request whose message is empty or missing, the
synchronous entry point returns 400 with no body, before any pipeline
stage runs — its response is independent of the generation backend and
of the tool environment, so the Planner is never invoked and no tool
call is issued — and the streaming entry point emits exactly one
`error` event and closes, never emitting a `status` event. -/
theorem empty_message_rejected (u u' : Upstream) (env env' : ToolCall → CallBehavior)
    (msg : Option String) (h : checkMessage msg = none) :
    syncEntry u env msg = { status := 400, body := none } ∧
    syncEntry u env msg = syncEntry u' env' msg ∧
    streamEntry u env msg = [Event.error "message is required"] := by
  refine ⟨?_, ?_, ?_⟩ <;> simp [syncEntry, streamEntry, h]

/-- Witness for C6 at the concrete empty message. -/
theorem empty_message_rejected_witness :
    syncEntry genOk envQuick (some "") = { status := 400, body := none } ∧
    streamEntry genOk envQuick (some "") = [Event.error "message is required"] := by
  have h := empty_message_rejected genOk genOk envQuick envQuick (some "") rfl
  exact ⟨h.1, h.2.2⟩

/-! ### Stream Emitter protocol (C7) -/

theorem filter_terminal_toolEvents (prs : List (ToolCall × ToolResult)) :
    (prs.map (fun pr => Event.tool pr.1.tool pr.2.ok)).filter isTerminalEv = [] := by
  rw [List.filter_eq_nil_iff]
  intro e he
  rcases List.mem_map.mp he with ⟨pr, _, rfl⟩
  simp [isTerminalEv]

/-- C7: every event sequence produced by the streaming entry point
follows the Stream Emitter state machine: there is exactly one
terminal event (`result` or `error`), it is the last event before the
stream closes, and the sequence has one of the machine's shapes —
a lone validation `error`; `status{planning}` then a fatal `error`; or
`status{planning}`, the `cards` event, the `tool` events (one per
ToolResult, between `cards` and the terminal event), and the terminal
`result`.  In particular `status{planning}` precedes `cards`, and no
event follows the terminal one. -/
theorem stream_protocol (u : Upstream) (env : ToolCall → CallBehavior)
    (msg : Option String) :
    ((streamEntry u env msg).filter isTerminalEv).length = 1 ∧
    (∃ t, (streamEntry u env msg).getLast? = some t ∧ isTerminalEv t = true) ∧
    ((∃ m, streamEntry u env msg = [Event.error m]) ∨
     (∃ m, streamEntry u env msg =
        [Event.status "planning", Event.error m]) ∨
     (∃ (txt : String) (cs : List Card) (prs : List (ToolCall × ToolResult))
        (payload : Plan), streamEntry u env msg =
        Event.status "planning" :: Event.cards txt cs ::
          ((prs.map (fun pr => Event.tool pr.1.tool pr.2.ok)) ++
            [Event.result payload]))) := by
  cases hm : checkMessage msg
  case none =>
    simp only [streamEntry, hm]
    exact ⟨rfl, ⟨Event.error "message is required", rfl, rfl⟩,
      Or.inl ⟨"message is required", rfl⟩⟩
  case some m =>
    cases hg : u.gen m
    case none =>
      simp only [streamEntry, hm, hg]
      exact ⟨rfl, ⟨Event.error "upstream unavailable", rfl, rfl⟩,
        Or.inr (Or.inl ⟨"upstream unavailable", rfl⟩)⟩
    case some rr =>
      obtain ⟨r1, r2⟩ := rr
      simp only [streamEntry, hm, hg]
      refine ⟨?_, ?_, ?_⟩
      · simp [isTerminalEv, List.filter_append, filter_terminal_toolEvents]
      · refine ⟨Event.result (merge (planner r1 r2)
          ((fanOut (planner r1 r2).tool_calls env).map Prod.snd)), ?_, rfl⟩
        rw [← List.cons_append, ← List.cons_append]
        exact List.getLast?_concat _
      · exact Or.inr (Or.inr ⟨(planner r1 r2).text, (planner r1 r2).cards,
          fanOut (planner r1 r2).tool_calls env,
          merge (planner r1 r2) ((fanOut (planner r1 r2).tool_calls env).map Prod.snd),
          rfl⟩)

/-! ### Cross-surface client semantics (C5) -/

/-- C5 (code evaluated at the failing input): the part_005 client
names its request parameter `message` on both surfaces, and with it
the two entry points agree — the streaming terminal `result` payload
equals the synchronous response body.  The part_006 client instead
names the stream parameter `q` and its synchronous-fallback body field
`query`; the server reads `message`, so through part_006 the streaming
surface yields only an `error` event and the fallback gets 400 — not
the identical final semantics the claim asserts. -/
theorem client_param_mismatch :
    lookupMessage (askStreaming_query "hi") = some "hi" ∧
    lookupMessage (askNonStreaming_body "hi") = some "hi" ∧
    lookupMessage (send_streamQuery "hi") = none ∧
    lookupMessage (send_fallbackBody "hi") = none ∧
    (syncEntry genOk envQuick (lookupMessage (askNonStreaming_body "hi"))).status = 200 ∧
    (syncEntry genOk envQuick (lookupMessage (send_fallbackBody "hi"))).status = 400 ∧
    streamEntry genOk envQuick (lookupMessage (send_streamQuery "hi")) =
      [Event.error "message is required"] ∧
    (streamEntry genOk envQuick (lookupMessage (askStreaming_query "hi"))).getLast? =
      (syncEntry genOk envQuick (lookupMessage (askNonStreaming_body "hi"))).body.map
        Event.result := by
  exact ⟨rfl, rfl, rfl, rfl, rfl, rfl, rfl, rfl⟩

/-! ### Chunking (C9) -/

theorem tokenLoop_indices (e : Encoding) (ts : List Nat) :
    ∀ fuel i idx, ts.length - i ≤ fuel → indicesFrom idx (tokenLoop e ts i idx) := by
  intro fuel
  induction fuel with
  | zero =>
    intro i idx h
    have hn : ¬ i < ts.length := by omega
    rw [tokenLoop, dif_neg hn]
    exact trivial
  | succ n ih =>
    intro i idx h
    rw [tokenLoop]
    by_cases hlt : i < ts.length
    · rw [dif_pos hlt]
      refine ⟨rfl, ?_⟩
      apply ih
      simp only [MAX_CHUNK_TOKENS, OVERLAP_TOKENS]
      omega
    · rw [dif_neg hlt]
      exact trivial

theorem fallbackLoop_indices (text : String) :
    ∀ fuel i idx, text.length - i ≤ fuel → indicesFrom idx (fallbackLoop text i idx) := by
  intro fuel
  induction fuel with
  | zero =>
    intro i idx h
    have hn : ¬ i < text.length := by omega
    rw [fallbackLoop, dif_neg hn]
    exact trivial
  | succ n ih =>
    intro i idx h
    rw [fallbackLoop]
    by_cases hlt : i < text.length
    · rw [dif_pos hlt]
      refine ⟨rfl, ?_⟩
      apply ih
      simp only [CHAR_CHUNK_SIZE, CHAR_OVERLAP]
      omega
    · rw [dif_neg hlt]
      exact trivial

theorem fallbackChunk_spec (text : String) :
    fallbackChunk text ≠ [] ∧ indicesFrom 0 (fallbackChunk text) := by
  unfold fallbackChunk
  by_cases h : (fallbackLoop text 0 0).length > 0
  · rw [if_pos h]
    exact ⟨List.ne_nil_of_length_pos h,
      fallbackLoop_indices text text.length 0 0 (by omega)⟩
  · rw [if_neg h]
    exact ⟨List.cons_ne_nil _ _, by simp [indicesFrom]⟩

/-- C9: for every input string — the empty string included — and
every token-encoding outcome, `chunkText` returns a non-empty list of
chunks whose `index` fields are the consecutive integers 0, 1, 2, …;
it never throws: a failed token encoding (`enc = none`) takes the
character-based `fallbackChunk` path, and both paths return at least
one chunk. -/
theorem chunkText_total (enc : Option Encoding) (text docId : String) :
    chunkText enc text docId ≠ [] ∧ indicesFrom 0 (chunkText enc text docId) ∧
    chunkText none text docId = fallbackChunk text := by
  refine ⟨?_, ?_, rfl⟩ <;> cases enc
  case refine_1.none => exact (fallbackChunk_spec text).1
  case refine_1.some e =>
    show (if (tokenLoop e (e.encode text) 0 0).length > 0 then
        tokenLoop e (e.encode text) 0 0
      else [{ text := text.take 3000, index := 0 }]) ≠ []
    by_cases h : (tokenLoop e (e.encode text) 0 0).length > 0
    · rw [if_pos h]
      exact List.ne_nil_of_length_pos h
    · rw [if_neg h]
      exact List.cons_ne_nil _ _
  case refine_2.none => exact (fallbackChunk_spec text).2
  case refine_2.some e =>
    show indicesFrom 0 (if (tokenLoop e (e.encode text) 0 0).length > 0 then
        tokenLoop e (e.encode text) 0 0
      else [{ text := text.take 3000, index := 0 }])
    by_cases h : (tokenLoop e (e.encode text) 0 0).length > 0
    · rw [if_pos h]
      exact tokenLoop_indices e (e.encode text) (e.encode text).length 0 0 (by omega)
    · rw [if_neg h]
      simp [indicesFrom]

/-! ### Ingestion endpoint (C10) -/

theorem ingestLoop_spec :
    ∀ (files : List IngestFile) (lib : List (Nat × String)) (idx : Nat),
      (∀ q ∈ lib, q.1 < idx) →
      ingestLoop lib idx files = (lib ++ keptPaths idx files, entriesFrom idx files) := by
  intro files
  induction files with
  | nil =>
    intro lib idx _
    simp [ingestLoop, keptPaths, entriesFrom]
  | cons f rest ih =>
    intro lib idx h
    have hnotmem : savedPath idx f.name ∉ lib := by
      intro hmem
      exact absurd rfl (Nat.ne_of_lt (h _ hmem))
    have hstep : ∀ q ∈ lib ++ [savedPath idx f.name], q.1 < idx + 1 := by
      intro q hq
      rcases List.mem_append.mp hq with h1 | h2
      · exact Nat.lt_succ_of_lt (h q h1)
      · rw [List.mem_singleton.mp h2]
        exact Nat.lt_succ_self idx
    have herase : (lib ++ [savedPath idx f.name]).erase (savedPath idx f.name) = lib := by
      rw [List.erase_append_right _ hnotmem, List.erase_cons_head, List.append_nil]
    cases hout : f.outcome
    case ok n =>
      simp only [ingestLoop, hout, ih (lib ++ [savedPath idx f.name]) (idx + 1) hstep,
        keptPaths, entriesFrom, entryOf]
      rw [List.append_assoc]
      rfl
    case error e =>
      have hlib : ∀ q ∈ lib, q.1 < idx + 1 := fun q hq => Nat.lt_succ_of_lt (h q hq)
      simp only [ingestLoop, hout, herase, ih lib (idx + 1) hlib, keptPaths,
        entriesFrom, entryOf]

theorem mem_keptPaths :
    ∀ (files : List IngestFile) (idx j : Nat) (n : String),
      (j, n) ∈ keptPaths idx files →
      ∃ k, ∃ hk : k < files.length, j = idx + k ∧
        (files.get ⟨k, hk⟩).name = n ∧
        ∃ m, (files.get ⟨k, hk⟩).outcome = Except.ok m := by
  intro files
  induction files with
  | nil =>
    intro idx j n h
    simp [keptPaths] at h
  | cons f rest ih =>
    intro idx j n h
    cases hout : f.outcome
    case ok m =>
      rw [keptPaths, hout] at h
      rcases List.mem_cons.mp h with h1 | h2
      · refine ⟨0, Nat.succ_pos _, ?_, ?_, m, hout⟩
        · rw [(Prod.mk.injEq _ _ _ _).mp h1 |>.1]
          omega
        · exact ((Prod.mk.injEq _ _ _ _).mp h1).2.symm ▸ rfl
      · rcases ih (idx + 1) j n h2 with ⟨k, hk, hj, hname, m', hout'⟩
        refine ⟨k + 1, Nat.succ_lt_succ hk, by omega, hname, m', hout'⟩
    case error e =>
      rw [keptPaths, hout] at h
      rcases ih (idx + 1) j n h with ⟨k, hk, hj, hname, m', hout'⟩
      exact ⟨k + 1, Nat.succ_lt_succ hk, by omega, hname, m', hout'⟩

theorem forall₂_entriesFrom :
    ∀ (files : List IngestFile) (idx : Nat),
      List.Forall₂ (fun f e => e.filename = f.name ∧
        ((∃ m, f.outcome = Except.ok m) → e.status = "success") ∧
        ((∃ err, f.outcome = Except.error err) →
          e.status = "error" ∧ e.error.isSome = true))
        files (entriesFrom idx files) := by
  intro files
  induction files with
  | nil => intro idx; exact List.Forall₂.nil
  | cons f rest ih =>
    intro idx
    refine List.Forall₂.cons ?_ (ih (idx + 1))
    cases hout : f.outcome
    case ok n =>
      refine ⟨?_, fun _ => ?_, fun he => ?_⟩
      · simp [entryOf, hout]
      · simp [entryOf, hout]
      · rcases he with ⟨err, he⟩
        exact absurd he (by simp)
    case error e =>
      refine ⟨?_, fun hs => ?_, fun _ => ?_⟩
      · simp [entryOf, hout]
      · rcases hs with ⟨m, hs⟩
        exact absurd hs (by simp)
      · simp [entryOf, hout]

/-- C10: the ingestion endpoint processes the uploaded files
independently: it responds 200 with exactly one per-file result entry,
in upload order; a file whose extraction/chunking/embedding/storage
fails gets an `"error"` entry (with the error message recorded) while
the remaining files are still processed, and such a file's saved copy
is absent from the library afterwards — exactly the successfully
processed files' copies are kept; an empty file list yields 400 (and a
form-data parse failure 500, not 400). -/
theorem ingest_per_file (files : List IngestFile) (hne : files ≠ []) :
    (ingestPOST (some files)).status = 200 ∧
    (ingestPOST (some files)).results = entriesFrom 0 files ∧
    (ingestPOST (some files)).results.length = files.length ∧
    List.Forall₂ (fun f e => e.filename = f.name ∧
      ((∃ m, f.outcome = Except.ok m) → e.status = "success") ∧
      ((∃ err, f.outcome = Except.error err) →
        e.status = "error" ∧ e.error.isSome = true))
      files (ingestPOST (some files)).results ∧
    (ingestPOST (some files)).lib = keptPaths 0 files ∧
    (∀ i, ∀ hi : i < files.length, ∀ err,
      (files.get ⟨i, hi⟩).outcome = Except.error err →
      (i, (files.get ⟨i, hi⟩).name) ∉ (ingestPOST (some files)).lib) ∧
    (ingestPOST (some [])).status = 400 ∧ (ingestPOST none).status = 500 := by
  have hrun := ingestLoop_spec files [] 0 (by intro q hq; simp at hq)
  have hpost : ingestPOST (some files) =
      { status := 200, results := entriesFrom 0 files, lib := keptPaths 0 files } := by
    show (if files.isEmpty then ({ status := 400, results := [], lib := [] } : IngestResponse)
      else { status := 200, results := (ingestLoop [] 0 files).2,
             lib := (ingestLoop [] 0 files).1 }) = _
    rw [if_neg (by simpa [List.isEmpty_iff] using hne), hrun]
    rfl
  rw [hpost]
  refine ⟨rfl, rfl, ?_, forall₂_entriesFrom files 0, rfl, ?_, rfl, rfl⟩
  · show (entriesFrom 0 files).length = files.length
    clear hrun hpost hne
    generalize 0 = idx
    induction files generalizing idx with
    | nil => rfl
    | cons f rest ih => simp [entriesFrom, ih]
  · intro i hi err hout hmem
    rcases mem_keptPaths files 0 i _ hmem with ⟨k, hk, hj, _, m, hokk⟩
    have hik : i = k := by omega
    subst hik
    rw [hout] at hokk
    exact absurd hokk (by simp)

/-- Witness for C10: two concrete uploads, the first succeeding and
the second failing during extraction — the response is 200 with both
entries and only the first file's copy remains in the library. -/
theorem ingest_per_file_witness :
    (ingestPOST (some [fOk, fBad])).status = 200 ∧
    (ingestPOST (some [fOk, fBad])).results.length = 2 ∧
    (ingestPOST (some [fOk, fBad])).lib = [(0, "a.pdf")] ∧
    (1, "b.pdf") ∉ (ingestPOST (some [fOk, fBad])).lib := by
  have h := ingest_per_file [fOk, fBad] (by decide)
  refine ⟨h.1, h.2.2.1, ?_, ?_⟩
  · exact h.2.2.2.2.1.trans (by decide)
  · exact h.2.2.2.2.2.1 1 (by decide) "extract failed" (by decide)

end KF
